import Mathlib

/-!
# Verification of the reconciliation pipeline (`recon_logic.py`)

A shallow embedding of `run_recon_pipeline` and its helpers from
`src/recon_logic.py`.  Spreadsheet and PDF cells are modelled as
`Option String` (`none` is pandas `NaN` / Python `None`; every input is
read with `dtype=str`, so present values are strings).  Numeric values
produced by `safe_float_val` (Python `float`) are modelled as exact
rationals `ℚ`.  Filesystem reads/writes performed by the pipeline are
recorded as an explicit event trace, and the existence of a file at an
output path is modelled by a boolean (pre-existing) plus the write events
of the current run.
-/

namespace Recon

/-- A spreadsheet / extracted-table cell: `none` models a missing value
(pandas `NaN`, Python `None`); `some s` a string value. -/
abbrev Cell := Option String

/-- Python `str(x)` for a cell coming from `pdfplumber` (`None` prints as
`"None"`). -/
def pyShow : Cell → String
  | none => "None"
  | some s => s

/-- Python `str(x)` for a cell of a pandas frame read with `dtype=str`
(a missing value is the float `nan`, which prints as `"nan"`); used for
`astype(str)` on the bank `Description` column (recon_logic.py:106). -/
def pyStrNaN : Cell → String
  | none => "nan"
  | some s => s

/-- Python `str.strip()`: remove leading and trailing whitespace. -/
def pyStrip (s : String) : String :=
  String.mk (((s.toList.dropWhile Char.isWhitespace).reverse.dropWhile Char.isWhitespace).reverse)

/-- Python `str.upper()` (ASCII case mapping). -/
def pyUpper (s : String) : String :=
  String.mk (s.toList.map Char.toUpper)

/-- One left-to-right, non-overlapping replacement pass of Python
`str.replace(old, new)` over the character list, with enough fuel to
consume the whole list (the fuel argument only makes the recursion
structural; it never runs out when initialised with the list length). -/
def listReplaceFuel (pat rep : List Char) : Nat → List Char → List Char
  | _, [] => []
  | 0, l => l
  | fuel + 1, c :: t =>
    if pat.isPrefixOf (c :: t) && !pat.isEmpty then
      rep ++ listReplaceFuel pat rep fuel ((c :: t).drop pat.length)
    else
      c :: listReplaceFuel pat rep fuel t

/-- Python `str.replace(old, new)` (replace every non-overlapping
occurrence, scanning left to right). -/
def pyReplace (s pat rep : String) : String :=
  String.mk (listReplaceFuel pat.toList rep.toList s.toList.length s.toList)

/-- `safe_upper_strip` (recon_logic.py:30-31):
`str(x).strip().upper() if pd.notna(x) else ""`. -/
def safe_upper_strip : Cell → String
  | none => ""
  | some s => pyUpper (pyStrip s)

/-- Numeric value of a digit list, most significant first. -/
def natOfDigits (l : List Char) : Nat :=
  l.foldl (fun n c => 10 * n + (c.toNat - 48)) 0

/-- Split a character list at the first `'.'`: the part before it, and
(if a `'.'` occurs) the part after it. -/
def splitAtDot : List Char → List Char × Option (List Char)
  | [] => ([], none)
  | c :: t =>
    if c = '.' then ([], some t)
    else
      let r := splitAtDot t
      (c :: r.1, r.2)

/-- Python `float(s)` restricted to plain decimal numerals (optional
sign, digits, at most one decimal point): the only shapes exercised by
this pipeline's data.  Anything else — including a second `'.'`, which
makes the fractional part fail the all-digits test — parses to `none`,
exactly as `safe_float_val`'s `except` clause turns a `float` failure
into `None`.  Idealisation: the numeral is parsed to its exact rational
value, whereas Python `float` rounds it to the nearest binary64 (e.g.
`float("500.01")` is about `500.00999999999999`, so a subsequent
subtraction can land strictly inside a tolerance that the exact values
sit exactly on).  Statements about concrete parsed amounts are
therefore only drawn on instances whose comparison outcome is the same
under exact and under rounded parsing. -/
def parseDecimal? (s : String) : Option ℚ :=
  let cs := s.toList
  let p : Bool × List Char :=
    match cs with
    | '-' :: rest => (true, rest)
    | '+' :: rest => (false, rest)
    | _ => (false, cs)
  let sp := splitAtDot p.2
  match sp.2 with
  | none =>
    if !sp.1.isEmpty && sp.1.all Char.isDigit then
      some (if p.1 then -(natOfDigits sp.1 : ℚ) else (natOfDigits sp.1 : ℚ))
    else none
  | some fp =>
    if (!sp.1.isEmpty || !fp.isEmpty) && sp.1.all Char.isDigit && fp.all Char.isDigit then
      let q : ℚ := mkRat (natOfDigits sp.1 * 10 ^ fp.length + natOfDigits fp) (10 ^ fp.length)
      some (if p.1 then -q else q)
    else none

/-- `safe_float_val` (recon_logic.py:33-39): `None` for a missing or
blank cell, otherwise `float(str(x).replace(',', '').strip())` with any
parse failure collapsed to `None`. -/
def safe_float_val : Cell → Option ℚ
  | none => none
  | some s =>
    if pyStrip s = "" then none
    else parseDecimal? (pyStrip (pyReplace s "," ""))

/-- Literal substring test: does `pat` occur (contiguously) inside the
list?  Used for both `str.contains(..., regex=False)` and the
`"/XUTR/"` containment test (whose pattern has no regex
metacharacters, so regex and literal matching coincide). -/
def hasSubstr (pat : List Char) : List Char → Bool
  | [] => pat.isEmpty
  | c :: t => pat.isPrefixOf (c :: t) || hasSubstr pat t

/-- `s` contains `pat` as a literal, case-sensitive substring. -/
def strContains (s pat : String) : Bool :=
  hasSubstr pat.toList s.toList

/-- `re.sub('^/XUTR/', '', s)` (recon_logic.py:101): remove one leading
`/XUTR/` anchored at the start of the string; without `re.MULTILINE`
the `^` anchor matches only at position 0, so an occurrence elsewhere
is untouched. -/
def stripLeadingXUTR (s : String) : String :=
  if "/XUTR/".toList.isPrefixOf s.toList then String.mk (s.toList.drop 6) else s

/-! ## Stage 1: statement extraction (recon_logic.py:77-101) -/

/-- The errors the modelled part of the pipeline can raise.
`extractionError` is the `ValueError("No tables found in PDF.")` of
line 86 (the spec's `ExtractionError`); `schemaError` the
`ValueError` for missing required columns of line 96 (the spec's
`SchemaError`). -/
inductive ReconError
  | extractionError
  | schemaError
deriving DecidableEq, Repr

/-- Column-name normalisation (recon_logic.py:93):
`str(c).strip().replace('.', '_').replace(' ', '_')`. -/
def normalize_col (c : Cell) : String :=
  pyReplace (pyReplace (pyStrip (pyShow c)) "." "_") " " "_"

/-- The PDF table after header normalisation: `header` is the normalised
first extracted row, `rows` the remaining rows
(`pd.DataFrame(rows, columns=columns)`, recon_logic.py:88-93). -/
structure PdfTable where
  header : List String
  rows : List (List Cell)
deriving DecidableEq, Repr

/-- Cell of `row` under column `name`: position of `name` in the header
(first occurrence), with a missing position read as `NaN` (pandas pads
short rows with `NaN`). -/
def getCell (t : PdfTable) (row : List Cell) (name : String) : Cell :=
  (row.get? (t.header.indexOf name)).getD none

/-- Lines 85-96: fail with `extractionError` when zero rows were
extracted from the whole document, otherwise use the first row as the
header, normalise the column names and require `Msg_Refer_No` and
`Refer_No` to be present. -/
def extract_pdf_table (all_rows : List (List Cell)) : Except ReconError PdfTable :=
  match all_rows with
  | [] => .error .extractionError
  | header :: rows =>
    let cols := header.map normalize_col
    if "Msg_Refer_No" ∈ cols ∧ "Refer_No" ∈ cols then .ok ⟨cols, rows⟩
    else .error .schemaError

/-- Line 99: keep rows whose `Refer_No` is present and not blank
(`notna() & str.strip().ne("")`). -/
def stmt_filter1 (t : PdfTable) : List (List Cell) :=
  t.rows.filter (fun row =>
    match getCell t row "Refer_No" with
    | some s => decide (pyStrip s ≠ "")
    | none => false)

/-- Line 100: keep rows whose `Refer_No` contains `"/XUTR/"`
(`str.contains` with a metacharacter-free pattern, hence a literal
substring test; `na=False` drops missing values, which line 99 already
removed). -/
def stmt_filter2 (t : PdfTable) : List (List Cell) :=
  (stmt_filter1 t).filter (fun row =>
    match getCell t row "Refer_No" with
    | some s => strContains s "/XUTR/"
    | none => false)

/-- A retained statement row, reduced to the two fields the rest of the
pipeline reads (all other columns are carried through opaquely and
never consulted). -/
structure StmtRow where
  msg_Refer_No : Cell
  refer_No : String
deriving DecidableEq, Repr

/-- Lines 99-101 combined: the Statement Extractor's output.  The
`getD ""` default on `Refer_No` is unreachable (line 99 removed every
missing value). -/
def statement_rows (t : PdfTable) : List StmtRow :=
  (stmt_filter2 t).map (fun row =>
    { msg_Refer_No := getCell t row "Msg_Refer_No"
      refer_No := stripLeadingXUTR ((getCell t row "Refer_No").getD "") })

/-! ## Stage 2: bank ledger (recon_logic.py:103-106) -/

/-- One bank-statement row, already projected to the three `bank_cols`
(recon_logic.py:104). -/
structure BankRow where
  transaction_ID : Cell
  description : Cell
  amount : Cell
deriving DecidableEq, Repr

/-- A ledger entry after `bank_df["Description"].astype(str)`
(recon_logic.py:106): the description is unconditionally a string. -/
structure LedgerEntry where
  transaction_ID : Cell
  description : String
  amount : Cell
deriving DecidableEq, Repr

/-- Lines 104-106: concatenate the bank files in input order, keeping
row order within each file, then coerce `Description` to text. -/
def bank_combine (files : List (List BankRow)) : List LedgerEntry :=
  files.flatten.map (fun r => ⟨r.transaction_ID, pyStrNaN r.description, r.amount⟩)

/-! ## Stage 3: reference matching (recon_logic.py:108-124) -/

/-- First-seen-order deduplication with an accumulator of already-seen
keys (`pandas.Series.unique` keeps the first occurrence of each
value). -/
def eraseDupsAux (seen : List String) : List String → List String
  | [] => []
  | x :: xs => if x ∈ seen then eraseDupsAux seen xs else x :: eraseDupsAux (x :: seen) xs

/-- `pdf_df['Msg_Refer_No'].dropna().unique().tolist()`
(recon_logic.py:109): drop missing values, deduplicate keeping the
first occurrence. -/
def uniqueMsgRefs (stmts : List StmtRow) : List String :=
  eraseDupsAux [] (stmts.filterMap (·.msg_Refer_No))

/-- Lines 110-118: for each retained (non-blank) reference, in order,
collect every ledger entry whose description contains the reference as
a literal substring (`str.contains(..., regex=False)`), tagged with the
reference (`__Msg_Ref__`).  Appending an empty chunk and skipping it
produce the same concatenation, so `matched_pdf_chunks` is flattened
here; the chunk list was empty iff this list is empty. -/
def reference_hits (refs : List String) (ledger : List LedgerEntry) :
    List (LedgerEntry × String) :=
  (refs.filter (fun r => decide (pyStrip r ≠ ""))).flatMap (fun r =>
    (ledger.filter (fun e => strContains e.description r)).map (fun e => (e, r)))

/-- Line 124: inner-join the tagged ledger entries back to the statement
rows on `__Msg_Ref__ = Msg_Refer_No`, preserving the order of the left
keys (pandas `merge(..., how="inner")`). -/
def merge_hits_stmts (hits : List (LedgerEntry × String)) (stmts : List StmtRow) :
    List (LedgerEntry × String × StmtRow) :=
  hits.flatMap (fun h =>
    (stmts.filter (fun s => decide (s.msg_Refer_No = some h.2))).map (fun s => (h.1, h.2, s)))

/-! ## Stage 4: claims linking (recon_logic.py:126-140) -/

/-- One MIS row, projected to the five columns the pipeline reads; the
remaining eight `mis_cols` are carried through opaquely and never
consulted. -/
structure MisRow where
  patient_Name : Cell
  in_Patient_Number : Cell
  claim_Number : Cell
  settled_Amount : Cell
  cheque_NEFT_UTR_No : Cell
deriving DecidableEq, Repr

/-- Lines 128-130: keep MIS rows whose `Cheque/ NEFT/ UTR No.` is
present and not blank. -/
def mis_clean (mis : List MisRow) : List MisRow :=
  mis.filter (fun r =>
    match r.cheque_NEFT_UTR_No with
    | some s => decide (pyStrip s ≠ "")
    | none => false)

/-- One row of the consolidated result: a full chain
ledger entry → message reference → statement row → MIS claim row. -/
structure ConsolidatedRecord where
  entry : LedgerEntry
  msg_ref : String
  stmt : StmtRow
  mis : MisRow
deriving DecidableEq, Repr

/-- Lines 132-137: inner-join the merged rows to the cleaned MIS table
on `Refer_No = Cheque/ NEFT/ UTR No.`, preserving left-key order. -/
def consolidated_rows (merged : List (LedgerEntry × String × StmtRow))
    (cleaned : List MisRow) : List ConsolidatedRecord :=
  merged.flatMap (fun m =>
    (cleaned.filter (fun c => decide (c.cheque_NEFT_UTR_No = some m.2.2.refer_No))).map
      (fun c => ⟨m.1, m.2.1, m.2.2, c⟩))

/-- `bank_cols` (recon_logic.py:51). -/
def bank_cols : List String :=
  ["Transaction ID", "Description", "Transaction Amount(INR)"]

/-- `mis_cols` (recon_logic.py:52-56). -/
def mis_cols : List String :=
  ["IHX Ref Id", "Hospital Name", "RohiniId", "Patient Name", "In Patient Number",
   "Claim Number", "Initial Claim Number", "Settled Amount", "TDS Amount",
   "Cheque/ NEFT/ UTR No.", "Cheque/ NEFT/ UTR Date", "Claim Status", "TPA Name"]

/-- The consolidated table: its column schema together with its rows
(`consolidated_result`).  In the no-match branch (line 121) the schema
is `bank_cols ++ mis_cols` and the row list is empty. -/
structure Consolidated where
  columns : List String
  rows : List ConsolidatedRecord
deriving DecidableEq, Repr

/-- Column schema of a non-empty consolidated result: the bank columns,
the `__Msg_Ref__` tag, the statement columns and the MIS columns, in
merge order.  (pandas suffixes duplicated names with `_x`/`_y`; that
renaming is not modelled, no property here depends on it.) -/
def consolidated_columns (t : PdfTable) : List String :=
  bank_cols ++ ["__Msg_Ref__"] ++ t.header ++ mis_cols

/-! ## Stage 5: outstanding annotation (recon_logic.py:142-189) -/

/-- Last-write-wins lookup in an association list, modelling a Python
dict built by a comprehension over rows in order (a later row with the
same key silently overwrites an earlier one). -/
def dictLookup {α : Type} (pairs : List (String × α)) (k : String) : Option α :=
  pairs.foldl (fun acc p => if p.1 = k then some p.2 else acc) none

/-- `inpat_to_claim` (recon_logic.py:143-146): normalised in-patient
number → raw claim-number cell. -/
def inpat_to_claim (rows : List ConsolidatedRecord) : List (String × Cell) :=
  rows.map (fun r => (safe_upper_strip r.mis.in_Patient_Number, r.mis.claim_Number))

/-- `patnm_to_claim` (recon_logic.py:147-150): normalised patient
name → raw claim-number cell. -/
def patnm_to_claim (rows : List ConsolidatedRecord) : List (String × Cell) :=
  rows.map (fun r => (safe_upper_strip r.mis.patient_Name, r.mis.claim_Number))

/-- `claim_to_settled_amount` (recon_logic.py:151-154): normalised claim
number → tolerantly parsed settled amount. -/
def claim_to_settled_amount (rows : List ConsolidatedRecord) : List (String × Option ℚ) :=
  rows.map (fun r => (safe_upper_strip r.mis.claim_Number, safe_float_val r.mis.settled_Amount))

/-- `claim_to_settled_amount.get(claim_cr)` (recon_logic.py:176): the
raw claim cell is used as the dict key; a missing (`NaN`) cell never
equals a string key, and a missing key and a stored `None` value both
come back as `None`, which the next line's `is not None` rejects. -/
def getSettled (settled : List (String × Option ℚ)) (claim : Cell) : Option ℚ :=
  match claim with
  | none => none
  | some s => (dictLookup settled s).bind id

/-- Python truthiness of the `match_claim` value tested by
`if match_claim:` (recon_logic.py:180): the empty string is falsy, a
`NaN` float is truthy. -/
def cellTruthy : Cell → Bool
  | none => true
  | some s => decide (s ≠ "")

/-- The row filter `df["Claim No"].isna() | (df["Claim No"].str.strip() == "")`
(recon_logic.py:166). -/
def blankClaim : Cell → Bool
  | none => true
  | some s => decide (pyStrip s = "")

/-- Python `abs` on the exact rationals of the model (spelled out so
that it evaluates by kernel reduction). -/
def ratAbs (q : ℚ) : ℚ :=
  if q < 0 then -q else q

/-- The settled-vs-balance tolerance test `abs(settled_amt - balance) < 0.01`
(recon_logic.py:177), on the exact rationals of the model; `mkRat 1 100`
is the exact value of the literal `0.01`. -/
def tolerance_ok (amt b : ℚ) : Bool :=
  decide (ratAbs (amt - b) < mkRat 1 100)

/-- One row of an outstanding sheet, projected to the four required
columns. -/
structure OutRow where
  claim_No : Cell
  cr_No : Cell
  patient_Name : Cell
  balance : Cell
deriving DecidableEq, Repr

/-- One sheet of the outstanding workbook: whether it has all four
required columns (recon_logic.py:163), and its rows. -/
structure OutSheet where
  hasRequiredCols : Bool
  rows : List OutRow
deriving DecidableEq, Repr

/-- The match decision for one blank-claim row (recon_logic.py:171-178):
both indices must contain the normalised keys, resolve to the same raw
claim cell, that cell must have a known settled amount, the balance
must parse, and the difference must be inside the strict tolerance. -/
def row_match (inpat patd : List (String × Cell)) (settled : List (String × Option ℚ))
    (r : OutRow) : Option Cell :=
  match dictLookup inpat (safe_upper_strip r.cr_No),
        dictLookup patd (safe_upper_strip r.patient_Name) with
  | some claim_cr, some claim_pat =>
    if claim_cr = claim_pat then
      match getSettled settled claim_cr, safe_float_val r.balance with
      | some amt, some b => if tolerance_ok amt b then some claim_cr else none
      | _, _ => none
    else none
  | _, _ => none

/-- Processing of one outstanding row (recon_logic.py:166-186): rows
whose `Claim No` is not blank are never visited; a matched row has the
resolved claim written into `Claim No` (and its cell cyan-filled, not
modelled) and reports an update; `if match_claim:` also drops a falsy
(empty-string) claim value. -/
def annotate_row (inpat patd : List (String × Cell)) (settled : List (String × Option ℚ))
    (r : OutRow) : OutRow × Bool :=
  if blankClaim r.claim_No then
    match row_match inpat patd settled r with
    | some c => if cellTruthy c then ({ r with claim_No := c }, true) else (r, false)
    | none => (r, false)
  else (r, false)

/-- One sheet (recon_logic.py:160-186): a sheet missing any of the four
required columns is skipped untouched. -/
def annotate_sheet (inpat patd : List (String × Cell)) (settled : List (String × Option ℚ))
    (s : OutSheet) : OutSheet × Bool :=
  if s.hasRequiredCols then
    let stepped := s.rows.map (annotate_row inpat patd settled)
    ({ s with rows := stepped.map Prod.fst }, stepped.any Prod.snd)
  else (s, false)

/-- All sheets; the boolean is the `update_found` flag accumulated
across every sheet. -/
def annotate_workbook (inpat patd : List (String × Cell)) (settled : List (String × Option ℚ))
    (sheets : List OutSheet) : List OutSheet × Bool :=
  let stepped := sheets.map (annotate_sheet inpat patd settled)
  (stepped.map Prod.fst, stepped.any Prod.snd)

/-! ## The whole pipeline (recon_logic.py:42-195)

The path-validation prologue (lines 58-75) only checks existence,
suffixes and parent-directory writability of the supplied paths; it
reads no file contents, and is not part of the modelled computation. -/

/-- A filesystem / input-consumption event of one pipeline run, in
program order.  `readPdf` is the `pdfplumber` extraction loop (lines
79-83); `readBank`, `readMis`, `readOutstanding` are the `read_excel` /
`load_workbook` calls (lines 104, 127, 158-162); `writeConsolidated`
is the `to_excel` call (line 140); `saveOutstanding` is `wb.save`
(line 189). -/
inductive Event
  | readPdf
  | readBank
  | readMis
  | readOutstanding
  | writeConsolidated
  | saveOutstanding
deriving DecidableEq, Repr

/-- The parsed contents of the four inputs naming one invocation, plus
whether a file already exists at each output path before the run
(`os.path.exists` at line 193-194 sees files left by earlier
invocations; the pipeline never deletes a file). -/
structure PipelineInput where
  all_rows : List (List Cell)
  bank_files : List (List BankRow)
  mis_rows : List MisRow
  outstanding : List OutSheet
  preExistsConsolidated : Bool
  preExistsUpdated : Bool

/-- The dict returned at recon_logic.py:191-195. -/
structure ReconResult where
  matches_found : Nat
  consolidated_written : Option String
  updated_outstanding_written : Option String
deriving DecidableEq, Repr

/-- The observable final state of a successful run: the consolidated
table, the annotated workbook, the `update_found` flag and the returned
dict. -/
structure FullState where
  consolidated : Consolidated
  updated_sheets : List OutSheet
  update_found : Bool
  result : ReconResult
deriving DecidableEq, Repr

/-- Lines 109-137 after a successful extraction: the consolidated table.
When no reference produced any hit, it is the empty table with schema
`bank_cols ++ mis_cols` (line 121); otherwise the chained joins run. -/
def pipeline_consolidated (inp : PipelineInput) (t : PdfTable) : Consolidated :=
  let stmts := statement_rows t
  let hits := reference_hits (uniqueMsgRefs stmts) (bank_combine inp.bank_files)
  if hits.isEmpty then ⟨bank_cols ++ mis_cols, []⟩
  else ⟨consolidated_columns t,
        consolidated_rows (merge_hits_stmts hits stmts) (mis_clean inp.mis_rows)⟩

/-- Whether line 140 ran: the consolidated spreadsheet is written
exactly when some reference hit was accumulated. -/
def pipeline_wrote_consolidated (inp : PipelineInput) (t : PdfTable) : Bool :=
  !(reference_hits (uniqueMsgRefs (statement_rows t)) (bank_combine inp.bank_files)).isEmpty

/-- Lines 143-186: the three dicts are built from the consolidated rows
and the workbook is annotated. -/
def pipeline_outstanding (inp : PipelineInput) (t : PdfTable) : List OutSheet × Bool :=
  let c := pipeline_consolidated inp t
  annotate_workbook (inpat_to_claim c.rows) (patnm_to_claim c.rows)
    (claim_to_settled_amount c.rows) inp.outstanding

/-- The event trace of a successful run as a function of the two
branching flags: the MIS read and consolidated write happen only in the
non-empty branch (lines 127, 140); the save only when an update was
found (lines 188-189). -/
def trace_of (wrote update_found : Bool) : List Event :=
  [Event.readPdf, Event.readBank]
    ++ (if wrote then [Event.readMis, Event.writeConsolidated] else [])
    ++ [Event.readOutstanding]
    ++ (if update_found then [Event.saveOutstanding] else [])

/-- The returned dict (recon_logic.py:191-195).  `matches_found` is
`int(len(consolidated_result)) if not consolidated_result.empty else 0`;
the schema always has columns, so `.empty` is exactly "no rows".  The
two `_written` fields reproduce the `os.path.exists` tests at return
time: a file exists there iff it pre-existed or this run wrote it (the
doubled existence test of line 194, via the walrus alias, is kept). -/
def pipeline_result (inp : PipelineInput) (t : PdfTable)
    (consolidated_output_path updated_outstanding_path : String) : ReconResult :=
  let c := pipeline_consolidated inp t
  let update_found := (pipeline_outstanding inp t).2
  let consolidatedExists := inp.preExistsConsolidated || pipeline_wrote_consolidated inp t
  let updatedExists := inp.preExistsUpdated || update_found
  { matches_found := if c.rows.isEmpty then 0 else c.rows.length
    consolidated_written := if consolidatedExists then some consolidated_output_path else none
    updated_outstanding_written :=
      if update_found && updatedExists && updatedExists then some updated_outstanding_path
      else none }

/-- `run_recon_pipeline` (recon_logic.py:42-195), from the parsed inputs
to the event trace and either an error or the final state.  A failed
extraction (line 86) aborts after the PDF read, before any other input
is consumed. -/
def run_recon_pipeline (inp : PipelineInput)
    (consolidated_output_path updated_outstanding_path : String) :
    List Event × Except ReconError FullState :=
  match extract_pdf_table inp.all_rows with
  | .error e => ([Event.readPdf], .error e)
  | .ok t =>
    (trace_of (pipeline_wrote_consolidated inp t) (pipeline_outstanding inp t).2,
     .ok ⟨pipeline_consolidated inp t, (pipeline_outstanding inp t).1,
          (pipeline_outstanding inp t).2,
          pipeline_result inp t consolidated_output_path updated_outstanding_path⟩)

/-! ## Concrete fixtures (the end-to-end scenario of spec.md §8) -/

/-- MIS row `{UTR: REF1, ClaimNumber: C1, SettledAmount: 500, InPatientNumber: IP1, PatientName: JOHN}`. -/
def exMisRow : MisRow :=
  { patient_Name := some "JOHN", in_Patient_Number := some "IP1",
    claim_Number := some "C1", settled_Amount := some "500",
    cheque_NEFT_UTR_No := some "REF1" }

/-- Bank row `{TransactionID: T1, Description: "payment MSG1 settled", Amount: 100}`. -/
def exBankRow : BankRow :=
  { transaction_ID := some "T1", description := some "payment MSG1 settled",
    amount := some "100" }

/-- Outstanding row with blank `Claim No`, CR No `ip1`, Patient Name
`john`, Balance `500.00`. -/
def exOutRow : OutRow :=
  { claim_No := none, cr_No := some "ip1", patient_Name := some "john",
    balance := some "500.00" }

/-- The end-to-end input: one PDF data row `[MSG1, /XUTR/REF1]` under
header `[Msg_Refer_No, Refer_No]`, one bank row, one MIS row, one
outstanding sheet; no output file pre-exists. -/
def exInput : PipelineInput :=
  { all_rows := [[some "Msg_Refer_No", some "Refer_No"], [some "MSG1", some "/XUTR/REF1"]],
    bank_files := [[exBankRow]],
    mis_rows := [exMisRow],
    outstanding := [⟨true, [exOutRow]⟩],
    preExistsConsolidated := false,
    preExistsUpdated := false }

/-- The normalised PDF table of `exInput`. -/
def exTable : PdfTable :=
  ⟨["Msg_Refer_No", "Refer_No"], [[some "MSG1", some "/XUTR/REF1"]]⟩

/-- The coerced ledger entry of `exInput`. -/
def exEntry : LedgerEntry :=
  ⟨some "T1", "payment MSG1 settled", some "100"⟩

/-- The retained statement row of `exInput`. -/
def exStmt : StmtRow := ⟨some "MSG1", "REF1"⟩

/-- The single consolidated record of the end-to-end scenario. -/
def exConsRecord : ConsolidatedRecord := ⟨exEntry, "MSG1", exStmt, exMisRow⟩

/-- The final state of the end-to-end run. -/
def exState : FullState :=
  { consolidated := ⟨consolidated_columns exTable, [exConsRecord]⟩
    updated_sheets := [⟨true, [{ exOutRow with claim_No := some "C1" }]⟩]
    update_found := true
    result := ⟨1, some "joined.xlsx", some "updated.xlsx"⟩ }

/-! ## Supporting lemmas -/

theorem hasSubstr_iff (pat : List Char) (l : List Char) :
    hasSubstr pat l = true ↔ pat <:+: l := by
  induction l with
  | nil =>
    simp only [hasSubstr, List.isEmpty_iff, List.infix_nil]
  | cons c t ih =>
    simp only [hasSubstr, Bool.or_eq_true, List.isPrefixOf_iff_prefix, ih,
      List.infix_cons_iff]

theorem strContains_iff (s pat : String) :
    strContains s pat = true ↔ pat.toList <:+: s.toList :=
  hasSubstr_iff pat.toList s.toList

theorem mem_eraseDupsAux {x : String} :
    ∀ {seen l : List String}, x ∈ eraseDupsAux seen l ↔ x ∈ l ∧ x ∉ seen := by
  intro seen l
  induction l generalizing seen with
  | nil => simp [eraseDupsAux]
  | cons y ys ih =>
    by_cases h : y ∈ seen
    · rw [eraseDupsAux, if_pos h, ih]
      constructor
      · rintro ⟨hx, hs⟩
        exact ⟨List.mem_cons_of_mem _ hx, hs⟩
      · rintro ⟨hx, hs⟩
        rcases List.mem_cons.mp hx with rfl | hx
        · exact absurd h hs
        · exact ⟨hx, hs⟩
    · rw [eraseDupsAux, if_neg h]
      constructor
      · intro hx
        rcases List.mem_cons.mp hx with rfl | hx
        · exact ⟨List.mem_cons_self _ _, h⟩
        · obtain ⟨h1, h2⟩ := ih.mp hx
          exact ⟨List.mem_cons_of_mem _ h1,
            fun hs => h2 (List.mem_cons_of_mem _ hs)⟩
      · rintro ⟨hx, hs⟩
        rcases List.mem_cons.mp hx with rfl | hx
        · exact List.mem_cons_self _ _
        · by_cases hxy : x = y
          · exact hxy ▸ List.mem_cons_self _ _
          · exact List.mem_cons_of_mem _ (ih.mpr ⟨hx, by
              intro hmem
              rcases List.mem_cons.mp hmem with h1 | h1
              · exact hxy h1
              · exact hs h1⟩)

theorem nodup_eraseDupsAux : ∀ {seen l : List String}, (eraseDupsAux seen l).Nodup := by
  intro seen l
  induction l generalizing seen with
  | nil => simp [eraseDupsAux]
  | cons y ys ih =>
    by_cases h : y ∈ seen
    · rw [eraseDupsAux, if_pos h]; exact ih
    · rw [eraseDupsAux, if_neg h, List.nodup_cons]
      exact ⟨fun hm => (mem_eraseDupsAux.mp hm).2 (List.mem_cons_self _ _), ih⟩

theorem dictLookup_foldl_ne_none {α : Type} (k : String) :
    ∀ (pairs : List (String × α)) (acc : Option α),
      ((∃ p ∈ pairs, p.1 = k) ∨ acc ≠ none) →
      pairs.foldl (fun acc p => if p.1 = k then some p.2 else acc) acc ≠ none := by
  intro pairs
  induction pairs with
  | nil =>
    intro acc h
    rcases h with ⟨p, hp, _⟩ | h
    · cases hp
    · simpa using h
  | cons q qs ih =>
    intro acc h
    rw [List.foldl_cons]
    by_cases hq : q.1 = k
    · exact ih _ (Or.inr (by simp [hq]))
    · refine ih _ ?_
      rcases h with ⟨p, hp, hpk⟩ | hacc
      · rcases List.mem_cons.mp hp with rfl | hp
        · exact absurd hpk hq
        · exact Or.inl ⟨p, hp, hpk⟩
      · right; simpa [hq] using hacc

theorem dictLookup_ne_none_of_mem {α : Type} {pairs : List (String × α)} {k : String}
    {v : α} (h : (k, v) ∈ pairs) : dictLookup pairs k ≠ none :=
  dictLookup_foldl_ne_none k pairs none (Or.inl ⟨(k, v), h, rfl⟩)

theorem row_match_nil (patd : List (String × Cell)) (settled : List (String × Option ℚ))
    (r : OutRow) : row_match [] patd settled r = none := rfl

theorem annotate_row_nil (patd : List (String × Cell)) (settled : List (String × Option ℚ))
    (r : OutRow) : annotate_row [] patd settled r = (r, false) := by
  simp [annotate_row, row_match_nil]

theorem map_annotate_row_nil (patd : List (String × Cell))
    (settled : List (String × Option ℚ)) :
    ∀ rows : List OutRow,
      rows.map (annotate_row [] patd settled) = rows.map (fun r => (r, false)) := by
  intro rows
  induction rows with
  | nil => rfl
  | cons r rs ih => simp [annotate_row_nil, ih]

theorem annotate_sheet_nil (patd : List (String × Cell)) (settled : List (String × Option ℚ))
    (s : OutSheet) : annotate_sheet [] patd settled s = (s, false) := by
  unfold annotate_sheet
  split
  · simp [map_annotate_row_nil, List.map_map, List.any_map, Function.comp_def]
  · rfl

theorem map_annotate_sheet_nil (patd : List (String × Cell))
    (settled : List (String × Option ℚ)) :
    ∀ sheets : List OutSheet,
      sheets.map (annotate_sheet [] patd settled) = sheets.map (fun s => (s, false)) := by
  intro sheets
  induction sheets with
  | nil => rfl
  | cons s ss ih => simp [annotate_sheet_nil, ih]

theorem annotate_workbook_nil (patd : List (String × Cell))
    (settled : List (String × Option ℚ)) (sheets : List OutSheet) :
    annotate_workbook [] patd settled sheets = (sheets, false) := by
  simp [annotate_workbook, map_annotate_sheet_nil, List.map_map, List.any_map,
    Function.comp_def]

theorem mem_trace_writeConsolidated (w u : Bool) :
    Event.writeConsolidated ∈ trace_of w u ↔ w = true := by
  cases w <;> cases u <;> simp [trace_of]

theorem mem_trace_readMis (w u : Bool) :
    Event.readMis ∈ trace_of w u ↔ w = true := by
  cases w <;> cases u <;> simp [trace_of]

theorem mem_trace_saveOutstanding (w u : Bool) :
    Event.saveOutstanding ∈ trace_of w u ↔ u = true := by
  cases w <;> cases u <;> simp [trace_of]

theorem mem_trace_readOutstanding (w u : Bool) :
    Event.readOutstanding ∈ trace_of w u := by
  cases w <;> cases u <;> simp [trace_of]

theorem run_ok_elim {inp : PipelineInput} {p1 p2 : String} {st : FullState}
    (h : (run_recon_pipeline inp p1 p2).2 = .ok st) :
    ∃ t, extract_pdf_table inp.all_rows = .ok t ∧
      st = ⟨pipeline_consolidated inp t, (pipeline_outstanding inp t).1,
            (pipeline_outstanding inp t).2, pipeline_result inp t p1 p2⟩ ∧
      (run_recon_pipeline inp p1 p2).1 =
        trace_of (pipeline_wrote_consolidated inp t) (pipeline_outstanding inp t).2 := by
  cases hE : extract_pdf_table inp.all_rows with
  | error e =>
    rw [run_recon_pipeline, hE] at h
    simp at h
  | ok t =>
    rw [run_recon_pipeline, hE] at h
    simp only [Except.ok.injEq] at h
    exact ⟨t, rfl, h.symm, by rw [run_recon_pipeline, hE]⟩

theorem length_if_isEmpty {α : Type} (l : List α) :
    (if l.isEmpty then 0 else l.length) = l.length := by
  cases l <;> simp

theorem stripLeadingXUTR_append (rest : String) :
    stripLeadingXUTR ("/XUTR/" ++ rest) = rest := by
  unfold stripLeadingXUTR
  have hl : ("/XUTR/" ++ rest).toList = "/XUTR/".toList ++ rest.toList := by
    simp [String.toList]
  rw [if_pos]
  · rw [hl]
    have h6 : (6 : Nat) = ("/XUTR/".toList).length := rfl
    rw [h6, List.drop_left]
    rfl
  · rw [hl]
    exact List.isPrefixOf_iff_prefix.mpr ⟨rest.toList, rfl⟩

theorem stripLeadingXUTR_of_not_prefix {s : String}
    (h : "/XUTR/".toList.isPrefixOf s.toList = false) : stripLeadingXUTR s = s := by
  unfold stripLeadingXUTR
  rw [if_neg (by simp only [h]; exact Bool.false_ne_true)]

theorem ratAbs_eq_abs (q : ℚ) : ratAbs q = |q| := by
  unfold ratAbs
  rcases lt_or_le q 0 with h | h
  · rw [if_pos h, abs_of_neg h]
  · rw [if_neg (not_lt.mpr h), abs_of_nonneg h]

theorem mkRat_one_hundred : (mkRat 1 100 : ℚ) = 0.01 := by
  rw [Rat.mkRat_eq_div]
  norm_num

theorem tolerance_ok_iff (amt b : ℚ) : tolerance_ok amt b = true ↔ |amt - b| < 0.01 := by
  unfold tolerance_ok
  rw [decide_eq_true_iff, ratAbs_eq_abs, mkRat_one_hundred]

/-- A bank row whose description contains no statement reference, so the
Reference Matcher accumulates nothing. -/
def noRefBankRow : BankRow :=
  { transaction_ID := some "T1", description := some "no reference here",
    amount := some "100" }

/-- The end-to-end input with the unmatched bank row: the union of all
reference hits is empty. -/
def noMatchInput : PipelineInput :=
  { exInput with bank_files := [[noRefBankRow]] }

/-- `noMatchInput` with a consolidated file left over from an earlier
invocation at the consolidated output path. -/
def staleInput : PipelineInput :=
  { noMatchInput with preExistsConsolidated := true }

/-- The end-to-end input with an empty PDF extraction. -/
def emptyPdfInput : PipelineInput :=
  { exInput with all_rows := [] }

/-! ## Claims -/

/-- C1: for every valid set of inputs, the `matches_found` field of the
result returned by `run_recon_pipeline` equals the number of rows of
the consolidated table (the result of the chained join), including `0`
when the consolidated table is empty. -/
theorem matches_found_eq_consolidated_row_count (inp : PipelineInput) (p1 p2 : String)
    (st : FullState) (h : (run_recon_pipeline inp p1 p2).2 = .ok st) :
    st.result.matches_found = st.consolidated.rows.length := by
  obtain ⟨t, hE, hst, htr⟩ := run_ok_elim h
  subst hst
  simp [pipeline_result, length_if_isEmpty]
  intro h0
  simp [h0]

/-- Witness for C1: the end-to-end scenario has one consolidated row and
`matches_found = 1`. -/
theorem matches_found_eq_consolidated_row_count_witness :
    exState.result.matches_found = exState.consolidated.rows.length :=
  matches_found_eq_consolidated_row_count exInput "joined.xlsx" "updated.xlsx" exState
    (by with_unfolding_all rfl)

/-- C3: the settled-amount-versus-balance tolerance test of the
Outstanding Annotator is strict: a settled amount and balance whose
absolute difference is exactly `0.01` do not match, while a difference
of `0.009999` does match.  The last two conjuncts exhibit this
end-to-end on the annotator at the boundary itself: a settled amount
parsed from `"0.01"` against balance `"0"` leaves the row unmodified,
and one parsed from `"0.009999"` annotates it.  These instances are
insensitive to the model's exact decimal parsing versus Python's
binary64 `float`: the subtraction against `0` is exact in either
arithmetic, so each comparison pits the parsed value of the numeral
against the parsed threshold `0.01` directly, and `x < x` is false (and
`0.009999 < 0.01` true, the values being about `10⁻³` apart) under both
readings of the numerals. -/
theorem tolerance_strict_boundary (amt b : ℚ) :
    (|amt - b| = 0.01 → tolerance_ok amt b = false) ∧
    (|amt - b| = 0.009999 → tolerance_ok amt b = true) ∧
    annotate_row [("IP1", some "C1")] [("JOHN", some "C1")]
        [("C1", safe_float_val (some "0.01"))]
        ⟨none, some "IP1", some "JOHN", some "0"⟩ =
      (⟨none, some "IP1", some "JOHN", some "0"⟩, false) ∧
    annotate_row [("IP1", some "C1")] [("JOHN", some "C1")]
        [("C1", safe_float_val (some "0.009999"))]
        ⟨none, some "IP1", some "JOHN", some "0"⟩ =
      (⟨some "C1", some "IP1", some "JOHN", some "0"⟩, true) := by
  refine ⟨?_, ?_, ?_, ?_⟩
  · intro h
    have hn : ¬(ratAbs (amt - b) < mkRat 1 100) := by
      rw [ratAbs_eq_abs, mkRat_one_hundred, h]
      exact lt_irrefl _
    simpa [tolerance_ok] using hn
  · intro h
    have hy : ratAbs (amt - b) < mkRat 1 100 := by
      rw [ratAbs_eq_abs, mkRat_one_hundred, h]
      norm_num
    simpa [tolerance_ok] using hy
  · with_unfolding_all rfl
  · with_unfolding_all rfl

/-- Witness for C3 at concrete differences `0.01` and `0.009999`. -/
theorem tolerance_strict_boundary_witness :
    tolerance_ok 0.01 0 = false ∧ tolerance_ok 0.009999 0 = true :=
  ⟨(tolerance_strict_boundary 0.01 0).1 (by norm_num),
   (tolerance_strict_boundary 0.009999 0).2.1 (by norm_num)⟩

/-- C5: if PDF table extraction yields zero rows across all pages of the
document, the pipeline fails with the extraction error, and this
failure occurs before any other input (bank, MIS, outstanding) has been
read.  (The path-validation prologue, lines 58-75, only stats the
supplied paths; it consumes no file contents.) -/
theorem empty_pdf_fails_before_other_inputs (inp : PipelineInput) (p1 p2 : String)
    (h : inp.all_rows = []) :
    run_recon_pipeline inp p1 p2 = ([Event.readPdf], .error .extractionError) ∧
    Event.readBank ∉ (run_recon_pipeline inp p1 p2).1 ∧
    Event.readMis ∉ (run_recon_pipeline inp p1 p2).1 ∧
    Event.readOutstanding ∉ (run_recon_pipeline inp p1 p2).1 := by
  have h1 : run_recon_pipeline inp p1 p2 = ([Event.readPdf], .error .extractionError) := by
    rw [run_recon_pipeline, h]
    rfl
  refine ⟨h1, ?_, ?_, ?_⟩ <;> rw [h1] <;> decide

/-- Witness for C5: the end-to-end scenario with an empty extraction. -/
theorem empty_pdf_fails_witness :
    run_recon_pipeline emptyPdfInput "a.xlsx" "b.xlsx" =
      ([Event.readPdf], .error .extractionError) :=
  (empty_pdf_fails_before_other_inputs emptyPdfInput "a.xlsx" "b.xlsx" rfl).1

/-- C2: the Outstanding Annotator writes a claim number into a row only
if the row's `Claim No` is blank and all five acceptance conditions
hold: the normalised CR number is a key of the in-patient index, the
normalised patient name is a key of the name index, both indices
resolve to the same claim number, that claim number has a known
(non-null) settled amount, and the absolute difference between that
settled amount and the row's parsed balance is strictly below `0.01`;
in particular, when the two lookups resolve to different claim numbers,
the row is left unmodified. -/
theorem annotator_writes_only_on_full_match
    (inpat patd : List (String × Cell)) (settled : List (String × Option ℚ))
    (r r' : OutRow) :
    (annotate_row inpat patd settled r = (r', true) →
      blankClaim r.claim_No = true ∧
      ∃ claim : Cell,
        dictLookup inpat (safe_upper_strip r.cr_No) = some claim ∧
        dictLookup patd (safe_upper_strip r.patient_Name) = some claim ∧
        ∃ amt b : ℚ,
          getSettled settled claim = some amt ∧
          safe_float_val r.balance = some b ∧
          |amt - b| < 0.01 ∧
          r' = { r with claim_No := claim }) ∧
    (∀ c1 c2 : Cell,
      dictLookup inpat (safe_upper_strip r.cr_No) = some c1 →
      dictLookup patd (safe_upper_strip r.patient_Name) = some c2 →
      c1 ≠ c2 → annotate_row inpat patd settled r = (r, false)) := by
  constructor
  · intro h
    unfold annotate_row at h
    split at h
    case isTrue hb =>
      refine ⟨hb, ?_⟩
      split at h
      case h_1 c hm =>
        split at h
        case isTrue ht =>
          have hr' : r' = { r with claim_No := c } := (Prod.mk.injEq _ _ _ _ ▸ h).1.symm
          unfold row_match at hm
          split at hm
          case h_1 claim_cr claim_pat h1 h2 =>
            split at hm
            case isTrue heq =>
              split at hm
              case h_1 amt b h3 h4 =>
                split at hm
                case isTrue htol =>
                  cases hm
                  exact ⟨c, h1, heq ▸ h2, amt, b, h3, h4,
                    (tolerance_ok_iff _ _).mp htol, hr'⟩
                case isFalse => exact Option.noConfusion hm
              case h_2 => exact Option.noConfusion hm
            case isFalse => exact Option.noConfusion hm
          case h_2 => exact Option.noConfusion hm
        case isFalse => simp at h
      case h_2 hm => simp at h
    case isFalse => simp at h
  · intro c1 c2 h1 h2 hne
    unfold annotate_row
    split
    · unfold row_match
      rw [h1, h2]
      simp [hne]
    · rfl

/-- Witness for C2: when the CR-based lookup resolves to claim `A` and
the name-based lookup to claim `B`, the row is left unmodified. -/
theorem annotator_writes_only_on_full_match_witness :
    annotate_row [("", some "A")] [("", some "B")] []
        ⟨none, none, none, none⟩ = (⟨none, none, none, none⟩, false) :=
  (annotator_writes_only_on_full_match [("", some "A")] [("", some "B")] []
      ⟨none, none, none, none⟩ ⟨none, none, none, none⟩).2
    (some "A") (some "B") rfl rfl (by simp)

/-- C6: every extracted statement row whose `Refer_No` is null or blank
is dropped; every row whose `Refer_No` does not contain `/XUTR/` is
excluded from the Statement Extractor's output (hence from every
downstream stage, which only consume that output); for every kept row a
leading `/XUTR/` prefix — anchored at the start of the string only — is
stripped from `Refer_No`, and an occurrence of `/XUTR/` not at the
start is left in place. -/
theorem statement_filter_characterisation (t : PdfTable) (row : List Cell) (r : StmtRow) :
    (row ∈ stmt_filter1 t ↔
      row ∈ t.rows ∧ ∃ s, getCell t row "Refer_No" = some s ∧ pyStrip s ≠ "") ∧
    (row ∈ stmt_filter2 t ↔
      row ∈ t.rows ∧ ∃ s, getCell t row "Refer_No" = some s ∧ pyStrip s ≠ "" ∧
        strContains s "/XUTR/" = true) ∧
    (r ∈ statement_rows t ↔ ∃ row2 ∈ stmt_filter2 t,
      r = ⟨getCell t row2 "Msg_Refer_No",
           stripLeadingXUTR ((getCell t row2 "Refer_No").getD "")⟩) ∧
    (∀ rest : String, stripLeadingXUTR ("/XUTR/" ++ rest) = rest) ∧
    (∀ s : String, "/XUTR/".toList.isPrefixOf s.toList = false → stripLeadingXUTR s = s) := by
  have p1 : row ∈ stmt_filter1 t ↔
      row ∈ t.rows ∧ ∃ s, getCell t row "Refer_No" = some s ∧ pyStrip s ≠ "" := by
    rw [stmt_filter1, List.mem_filter]
    refine and_congr_right fun _ => ?_
    cases hg : getCell t row "Refer_No" with
    | none => simp [hg]
    | some s => simp [hg]
  refine ⟨p1, ?_, ?_, stripLeadingXUTR_append, fun s hs => stripLeadingXUTR_of_not_prefix hs⟩
  · rw [stmt_filter2, List.mem_filter, p1]
    cases hg : getCell t row "Refer_No" with
    | none => simp [hg]
    | some s => simp [hg, and_assoc]
  · rw [statement_rows, List.mem_map]
    constructor
    · rintro ⟨row2, hmem, rfl⟩
      exact ⟨row2, hmem, rfl⟩
    · rintro ⟨row2, hmem, rfl⟩
      exact ⟨row2, hmem, rfl⟩

/-- Witness for C6: `/XUTR/` is stripped when (and only where) it is a
leading prefix. -/
theorem statement_filter_witness :
    stripLeadingXUTR "AB/XUTR/C" = "AB/XUTR/C" ∧
    stripLeadingXUTR ("/XUTR/" ++ "REF1") = "REF1" :=
  ⟨(statement_filter_characterisation exTable [] exStmt).2.2.2.2 "AB/XUTR/C" rfl,
   (statement_filter_characterisation exTable [] exStmt).2.2.2.1 "REF1"⟩

/-- C7: for every distinct, non-blank message reference of the
Statement Extractor's output (deduplicated in first-seen order — the
second conjunct gives the deduplication), the Reference Matcher selects
exactly those ledger entries whose description contains the reference
as a literal, case-sensitive substring (`<:+:` on the character lists,
so regex metacharacters in the reference are never interpreted), and
tags each selected entry with that reference (the pair). -/
theorem reference_matcher_literal (stmts : List StmtRow) (ledger : List LedgerEntry)
    (e : LedgerEntry) (rf : String) :
    ((e, rf) ∈ reference_hits (uniqueMsgRefs stmts) ledger ↔
      (some rf ∈ stmts.map StmtRow.msg_Refer_No ∧ pyStrip rf ≠ "" ∧ e ∈ ledger ∧
        rf.toList <:+: e.description.toList)) ∧
    (uniqueMsgRefs stmts).Nodup := by
  refine ⟨?_, nodup_eraseDupsAux⟩
  rw [reference_hits]
  simp only [List.mem_flatMap, List.mem_map, List.mem_filter, uniqueMsgRefs,
    mem_eraseDupsAux, List.mem_filterMap, List.not_mem_nil, not_false_iff, and_true,
    decide_eq_true_iff, strContains_iff, Prod.mk.injEq]
  constructor
  · rintro ⟨r0, ⟨⟨s0, hs0, hmsg⟩, hblank⟩, e0, ⟨he0, hsub⟩, heq1, heq2⟩
    subst heq1
    subst heq2
    exact ⟨⟨s0, hs0, hmsg⟩, hblank, he0, hsub⟩
  · rintro ⟨⟨s0, hs0, hmsg⟩, hblank, he, hsub⟩
    exact ⟨rf, ⟨⟨s0, hs0, hmsg⟩, hblank⟩, e, ⟨he, hsub⟩, rfl, rfl⟩

/-- C4 (amended): when the union of all ledger entries matched by the
Reference Matcher is empty, the pipeline does not fail: the
consolidated result is the empty table carrying the full downstream
column schema (bank columns plus MIS columns), stage 4.4 is skipped
(the MIS input is never read and no consolidated file is written), the
outstanding annotator still executes but — its three indices being
empty — performs no update and writes no file, and the invocation
returns successfully with `matches_found = 0`. -/
theorem empty_union_gives_empty_success (inp : PipelineInput) (p1 p2 : String)
    (t : PdfTable) (hE : extract_pdf_table inp.all_rows = .ok t)
    (hempty : reference_hits (uniqueMsgRefs (statement_rows t))
      (bank_combine inp.bank_files) = []) :
    (run_recon_pipeline inp p1 p2).2 =
      .ok ⟨⟨bank_cols ++ mis_cols, []⟩, inp.outstanding, false,
           ⟨0, if inp.preExistsConsolidated then some p1 else none, none⟩⟩ ∧
    Event.readMis ∉ (run_recon_pipeline inp p1 p2).1 ∧
    Event.writeConsolidated ∉ (run_recon_pipeline inp p1 p2).1 ∧
    Event.saveOutstanding ∉ (run_recon_pipeline inp p1 p2).1 ∧
    Event.readOutstanding ∈ (run_recon_pipeline inp p1 p2).1 := by
  have hwrote : pipeline_wrote_consolidated inp t = false := by
    unfold pipeline_wrote_consolidated
    rw [hempty]
    rfl
  have hcons : pipeline_consolidated inp t = ⟨bank_cols ++ mis_cols, []⟩ := by
    simp only [pipeline_consolidated]
    rw [hempty]
    rfl
  have hann : pipeline_outstanding inp t = (inp.outstanding, false) := by
    simp only [pipeline_outstanding]
    rw [hcons]
    exact annotate_workbook_nil _ _ _
  have hres : pipeline_result inp t p1 p2 =
      ⟨0, if inp.preExistsConsolidated then some p1 else none, none⟩ := by
    simp [pipeline_result, hcons, hann, hwrote]
  have htr : (run_recon_pipeline inp p1 p2).1 = trace_of false false := by
    simp [run_recon_pipeline, hE, hwrote, hann]
  refine ⟨by simp [run_recon_pipeline, hE, hcons, hann, hres], ?_, ?_, ?_, ?_⟩ <;>
    rw [htr] <;> decide

/-- Counterexample to C4 as stated: on a concrete input whose reference
union is empty, "stages 4.4 onward are skipped" fails for stage 4.5 —
the outstanding annotator still executes: the outstanding workbook is
read (`openpyxl.load_workbook`/`read_excel`, recon_logic.py:158-162,
run unconditionally). -/
theorem stage_five_runs_on_empty_union :
    reference_hits (uniqueMsgRefs (statement_rows exTable))
      (bank_combine noMatchInput.bank_files) = [] ∧
    Event.readOutstanding ∈ (run_recon_pipeline noMatchInput "a.xlsx" "b.xlsx").1 := by
  constructor
  · with_unfolding_all rfl
  · with_unfolding_all decide

/-- Witness for C4 (amended): the concrete no-match run returns
successfully with the empty schema-carrying table and `matches_found = 0`. -/
theorem empty_union_gives_empty_success_witness :
    (run_recon_pipeline noMatchInput "a.xlsx" "b.xlsx").2 =
      .ok ⟨⟨bank_cols ++ mis_cols, []⟩, noMatchInput.outstanding, false, ⟨0, none, none⟩⟩ :=
  (empty_union_gives_empty_success noMatchInput "a.xlsx" "b.xlsx" exTable rfl
    (by with_unfolding_all rfl)).1

/-- C8: the updated outstanding workbook is saved to the output path iff
at least one row update occurred across all sheets (`update_found`);
when zero updates occurred no output file is written by the pipeline,
the invocation still returns successfully and
`updated_outstanding_written` is absent. -/
theorem outstanding_saved_iff_update_found (inp : PipelineInput) (p1 p2 : String)
    (st : FullState) (h : (run_recon_pipeline inp p1 p2).2 = .ok st) :
    (Event.saveOutstanding ∈ (run_recon_pipeline inp p1 p2).1 ↔ st.update_found = true) ∧
    (st.update_found = false → st.result.updated_outstanding_written = none) ∧
    (st.update_found = true → st.result.updated_outstanding_written = some p2) := by
  obtain ⟨t, hE, hst, htr⟩ := run_ok_elim h
  subst hst
  refine ⟨?_, ?_, ?_⟩
  · rw [htr]
    simpa using mem_trace_saveOutstanding (pipeline_wrote_consolidated inp t)
      (pipeline_outstanding inp t).2
  · intro hu
    simp only at hu
    simp [pipeline_result, hu]
  · intro hu
    simp only at hu
    simp [pipeline_result, hu]

/-- Witness for C8: the end-to-end run found an update, and its trace
contains the save event. -/
theorem outstanding_saved_iff_update_found_witness :
    Event.saveOutstanding ∈ (run_recon_pipeline exInput "joined.xlsx" "updated.xlsx").1 ↔
      exState.update_found = true :=
  (outstanding_saved_iff_update_found exInput "joined.xlsx" "updated.xlsx" exState
    (by with_unfolding_all rfl)).1

/-- C9: `consolidated_written` is the consolidated output path exactly
when a file exists at that path at return time — pre-existing or
written by this run — regardless of whether the current invocation
wrote it; in particular a run with an empty consolidated result still
reports the path whenever a file from a previous invocation already
exists there, and the field is absent only when no file exists at the
path. -/
theorem consolidated_written_iff_file_exists (inp : PipelineInput) (p1 p2 : String)
    (st : FullState) (h : (run_recon_pipeline inp p1 p2).2 = .ok st) :
    (st.result.consolidated_written = some p1 ↔
      (inp.preExistsConsolidated = true ∨
        Event.writeConsolidated ∈ (run_recon_pipeline inp p1 p2).1)) ∧
    (st.result.consolidated_written = none ↔
      (inp.preExistsConsolidated = false ∧
        Event.writeConsolidated ∉ (run_recon_pipeline inp p1 p2).1)) ∧
    (st.consolidated.rows = [] ∧ inp.preExistsConsolidated = true →
      st.result.consolidated_written = some p1) := by
  obtain ⟨t, hE, hst, htr⟩ := run_ok_elim h
  subst hst
  rw [htr]
  cases hw : pipeline_wrote_consolidated inp t <;> cases hp : inp.preExistsConsolidated <;>
    simp [pipeline_result, hw, hp, mem_trace_writeConsolidated]

/-- Witness for C9: a no-match run (which writes nothing) over a stale
pre-existing consolidated file still reports the path. -/
theorem consolidated_written_iff_file_exists_witness :
    (⟨⟨bank_cols ++ mis_cols, []⟩, staleInput.outstanding, false,
      ⟨0, some "a.xlsx", none⟩⟩ : FullState).result.consolidated_written = some "a.xlsx" :=
  (consolidated_written_iff_file_exists staleInput "a.xlsx" "b.xlsx"
    ⟨⟨bank_cols ++ mis_cols, []⟩, staleInput.outstanding, false, ⟨0, some "a.xlsx", none⟩⟩
    (by with_unfolding_all rfl)).2.2 ⟨rfl, rfl⟩

/-- C10: blank or missing identifiers are not excluded from annotation
matching: the normalisation maps a null/NaN cell to the empty string, a
consolidated record with a missing In Patient Number (or Patient Name)
inserts the empty-string key into the corresponding index, and an
outstanding row whose CR No and Patient Name are both blank normalises
both lookups to the empty string and is annotated whenever the
empty-string keys of the two indices resolve to the same claim number
whose settled amount is within tolerance of the row's balance. -/
theorem blank_identifiers_participate (rows : List ConsolidatedRecord)
    (rec : ConsolidatedRecord) (r : OutRow) (c : Cell) (amt b : ℚ)
    (hrec : rec ∈ rows) (hip : rec.mis.in_Patient_Number = none)
    (hpn : rec.mis.patient_Name = none)
    (hcr : r.cr_No = none) (hpt : r.patient_Name = none)
    (hblank : blankClaim r.claim_No = true)
    (h1 : dictLookup (inpat_to_claim rows) "" = some c)
    (h2 : dictLookup (patnm_to_claim rows) "" = some c)
    (h3 : getSettled (claim_to_settled_amount rows) c = some amt)
    (h4 : safe_float_val r.balance = some b)
    (h5 : |amt - b| < 0.01)
    (h6 : cellTruthy c = true) :
    safe_upper_strip none = "" ∧
    ("", rec.mis.claim_Number) ∈ inpat_to_claim rows ∧
    ("", rec.mis.claim_Number) ∈ patnm_to_claim rows ∧
    annotate_row (inpat_to_claim rows) (patnm_to_claim rows)
        (claim_to_settled_amount rows) r = ({ r with claim_No := c }, true) := by
  have htol : tolerance_ok amt b = true := (tolerance_ok_iff amt b).mpr h5
  refine ⟨rfl, ?_, ?_, ?_⟩
  · exact List.mem_map.mpr ⟨rec, hrec, by rw [hip]; rfl⟩
  · exact List.mem_map.mpr ⟨rec, hrec, by rw [hpn]; rfl⟩
  · unfold annotate_row row_match
    rw [if_pos hblank, hcr, hpt]
    simp only [safe_upper_strip]
    rw [h1, h2]
    dsimp only
    rw [if_pos rfl, h3, h4]
    dsimp only
    rw [if_pos htol]
    dsimp only
    rw [if_pos h6]

/-- An MIS row with missing In Patient Number and Patient Name. -/
def blankMisRow : MisRow :=
  { patient_Name := none, in_Patient_Number := none, claim_Number := some "C9",
    settled_Amount := some "100", cheque_NEFT_UTR_No := some "R9" }

/-- A consolidated record built from `blankMisRow`. -/
def blankConsRecord : ConsolidatedRecord := ⟨exEntry, "MSG1", exStmt, blankMisRow⟩

/-- An outstanding row with blank `Claim No`, `CR No` and
`Patient Name`, balance `100`. -/
def blankOutRow : OutRow := ⟨none, none, none, some "100"⟩

/-- Witness for C10: the all-blank outstanding row is annotated with
claim `C9` through the empty-string keys. -/
theorem blank_identifiers_participate_witness :
    annotate_row (inpat_to_claim [blankConsRecord]) (patnm_to_claim [blankConsRecord])
        (claim_to_settled_amount [blankConsRecord]) blankOutRow =
      ({ blankOutRow with claim_No := some "C9" }, true) :=
  (blank_identifiers_participate [blankConsRecord] blankConsRecord blankOutRow
    (some "C9") 100 100 (List.mem_cons_self _ _) rfl rfl rfl rfl rfl
    (by with_unfolding_all rfl) (by with_unfolding_all rfl) (by with_unfolding_all rfl)
    (by with_unfolding_all rfl) (by norm_num) rfl).2.2.2

end Recon
